import Mathlib

/-!
Verification development for the OLX car-cover scraper (`src/olx_scraper.py`).

The scraper fetches paginated HTML search results, locates listing cards with
a chain of CSS selector fallbacks, extracts five string fields per card
(substituting the sentinel "N/A" when a field cannot be resolved), keeps only
records whose title is not the sentinel, and exports the accumulated records
to CSV and JSON.

We give a shallow embedding of the pure core: an HTML node model with the
exact selector semantics the code relies on, the field extractor
`extract_item_data`, the page scraper `scrape_page` (parameterised by the
outcome of the HTTP fetch), the aggregator `scrape_multiple_pages`
(instrumented with an event trace recording page visits and inter-page
sleeps), the exporters' empty-input guards, and the page-URL generator
`get_page_url`.
-/

namespace Olx

/-! ### Decimal rendering of naturals (model of Python `str(int)` for `n ≥ 0`) -/

/-- Fuel-driven decimal digit accumulation: renders `n` in base 10, most
significant digit first, in front of `acc`.  Mirrors the standard
division/modulo loop; `fuel > n` suffices to terminate. -/
def decDigits : Nat → Nat → List Char → List Char
  | 0, _, acc => acc
  | fuel + 1, n, acc =>
    if n < 10 then Nat.digitChar n :: acc
    else decDigits fuel (n / 10) (Nat.digitChar (n % 10) :: acc)

/-- Decimal string of a natural number, modelling Python `str` on a
non-negative integer (no sign, no leading zeros, `"0"` for zero). -/
def natToString (n : Nat) : String :=
  ⟨decDigits (n + 1) n []⟩

/-! ### Substring containment (model of Python `in` on strings) -/

/-- `containsSub pat s` holds when `pat` occurs as a contiguous sublist of
`s`; models Python's `pat in s` on strings (as character lists). -/
def containsSub (pat : List Char) : List Char → Bool
  | [] => pat.isEmpty
  | c :: rest => pat.isPrefixOf (c :: rest) || containsSub pat rest

/-- Python `str.strip()`: drop whitespace from both ends of a character
list. -/
def stripChars (cs : List Char) : List Char :=
  ((cs.dropWhile Char.isWhitespace).reverse.dropWhile Char.isWhitespace).reverse

/-- Whitespace tokenisation worker: `cur` holds the characters of the token
in progress, reversed. -/
def wsTokensAux (cur : List Char) : List Char → List (List Char)
  | [] => if cur.isEmpty then [] else [cur.reverse]
  | c :: rest =>
    if c.isWhitespace then
      if cur.isEmpty then wsTokensAux [] rest
      else cur.reverse :: wsTokensAux [] rest
    else wsTokensAux (c :: cur) rest

/-- The whitespace-separated tokens of a character list (empty tokens
dropped), as Python `str.split()` produces for a multi-valued HTML
attribute. -/
def wsTokens (cs : List Char) : List (List Char) :=
  wsTokensAux [] cs

/-! ### HTML node model

A parsed document is a tree of element nodes (tag name, attribute list,
children) and text nodes, as produced by BeautifulSoup from the raw markup.
-/

inductive Node where
  | text (s : String)
  | elem (tag : String) (attrs : List (String × String)) (children : List Node)

mutual

/-- All descendants of a node, in document (preorder) order, the node itself
excluded — the search scope of BeautifulSoup's `select` / `find` on a tag. -/
def Node.descendants : Node → List Node
  | .text _ => []
  | .elem _ _ cs => descendantsList cs

/-- Preorder listing of a forest of sibling subtrees: each root followed by
its own descendants. -/
def descendantsList : List Node → List Node
  | [] => []
  | c :: cs => c :: c.descendants ++ descendantsList cs

end

mutual

/-- Model of BeautifulSoup `get_text(strip=True)`: every text segment in the
subtree, stripped of surrounding whitespace, concatenated in document
order. -/
def Node.getTextStrip : Node → String
  | .text s => ⟨stripChars s.data⟩
  | .elem _ _ cs => getTextStripList cs

/-- `get_text(strip=True)` over a forest of siblings. -/
def getTextStripList : List Node → String
  | [] => ""
  | c :: cs => c.getTextStrip ++ getTextStripList cs

end

/-- Model of BeautifulSoup's `Tag.string`: defined only when the node has a
single child, recursively; a text child yields its contents. -/
def Node.nodeString : Node → Option String
  | .text s => some s
  | .elem _ _ [c] => c.nodeString
  | .elem _ _ _ => none

/-- First value bound to attribute `name` in an attribute list. -/
def getAttr (attrs : List (String × String)) (name : String) : Option String :=
  (attrs.find? fun p => p.1 == name).map (·.2)

/-- Attribute lookup on a node (`none` on text nodes). -/
def Node.attr (n : Node) (name : String) : Option String :=
  match n with
  | .text _ => none
  | .elem _ attrs _ => getAttr attrs name

/-- Whether an element node carries tag `t`. -/
def Node.tagIs (n : Node) (t : String) : Bool :=
  match n with
  | .text _ => false
  | .elem tag _ _ => tag == t

/-- The whitespace-separated tokens of the node's `class` attribute (HTML
treats `class` as a multi-valued attribute). -/
def Node.classList (n : Node) : List (List Char) :=
  wsTokens ((n.attr "class").getD "").data

/-! ### CSS selectors

Exactly the simple-selector shapes the scraper uses: a bare tag name, an
exact attribute match `[a="v"]`, a class token `.c`, a tag with a class
token `t.c`, an attribute substring match `[a*="v"]`, and a tag with an
attribute substring match `t[a*="v"]`. -/

inductive Selector where
  | tagName (t : String)
  | attrEq (name val : String)
  | clsTok (c : String)
  | tagCls (t c : String)
  | attrSub (name sub : String)
  | tagAttrSub (t name sub : String)

/-- CSS simple-selector matching against one node (text nodes never match).
Substring attribute matches test the raw attribute value, as soupsieve does
after serialising a multi-valued attribute back to its source string. -/
def Selector.matchesNode (sel : Selector) (n : Node) : Bool :=
  match sel with
  | .tagName t => n.tagIs t
  | .attrEq name val => n.attr name == some val
  | .clsTok c => (n.classList).contains c.data
  | .tagCls t c => n.tagIs t && (n.classList).contains c.data
  | .attrSub name sub =>
    match n.attr name with
    | some v => containsSub sub.toList v.toList
    | none => false
  | .tagAttrSub t name sub =>
    match n.attr name with
    | some v => n.tagIs t && containsSub sub.toList v.toList
    | none => false

/-- Model of BeautifulSoup `root.select(sel)`: every descendant of `root`
matching the selector, in document order. -/
def select (sel : Selector) (root : Node) : List Node :=
  root.descendants.filter sel.matchesNode

/-- Model of BeautifulSoup `root.select_one(sel)`: the first descendant
matching the selector, if any. -/
def select_one (sel : Selector) (root : Node) : Option Node :=
  root.descendants.find? sel.matchesNode

/-! ### urljoin

Model of CPython's `urllib.parse.urljoin('https://www.olx.in', href)` — the
only form the scraper calls.  The base parses as scheme `https`, netloc
`www.olx.in` and empty path, query, params and fragment, so the library's
algorithm is specialised accordingly: clean the href as `urlsplit` does
(left-strip C0 controls and space, drop tabs and newlines), split off a
scheme (lower-cased), an authority after `//`, a fragment, a query and path
params; then — different scheme: return the href verbatim; authority
present: reassemble it as given; empty path and params: the base origin
plus query/fragment; otherwise merge the path onto the base's empty path
(drop middle empty segments of a relative path), resolve `.` and `..`
segments, and reassemble.  The one library behaviour left out is its
`ValueError` on a bracketed or NFKC-unstable authority (the theorem using
this model restricts itself to ASCII bracket-free authorities via
`netlocSane`; on such raising inputs the extractor's `except` catches the
error and skips the node, so no record carries a url at all). -/

/-- The WHATWG "C0 control or space" left-strip `urlsplit` applies to its
input: drop leading characters `U+0000`–`U+0020`. -/
def lstripControlSpace (cs : List Char) : List Char :=
  cs.dropWhile fun c => c.toNat ≤ 0x20

/-- `urlsplit`'s removal of unsafe bytes: every tab, carriage return and
newline is deleted, anywhere in the input. -/
def removeUnsafe (cs : List Char) : List Char :=
  cs.filter fun c => !(c = '\t' || c = '\r' || c = '\n')

/-- Membership in `urllib.parse.scheme_chars`: ASCII letters and digits,
`+`, `-` and `.`. -/
def isSchemeChar (c : Char) : Bool :=
  c.isAlphanum || c = '+' || c = '-' || c = '.'

/-- Worker for `splitScheme`: consume scheme characters until the colon. -/
def splitSchemeAux (acc : List Char) : List Char → Option (List Char × List Char)
  | [] => none
  | c :: rest =>
    if c = ':' then some (acc.reverse, rest)
    else if isSchemeChar c then splitSchemeAux (c :: acc) rest
    else none

/-- `urlsplit`'s scheme detection: an ASCII letter followed by scheme
characters up to a colon splits off `(scheme, rest)`; anything else leaves
the url without a scheme of its own. -/
def splitScheme : List Char → Option (List Char × List Char)
  | [] => none
  | c :: rest => if c.isAlpha then splitSchemeAux [c] rest else none

/-- `_splitnetloc`: the authority runs up to the first `/`, `?` or `#`. -/
def splitNetlocChars (cs : List Char) : List Char × List Char :=
  cs.span fun c => !(c = '/' || c = '?' || c = '#')

/-- Split at the first occurrence of `c`, dropping it; `(cs, [])` when `c`
does not occur — matching how `urlsplit` leaves the fragment and query empty
then, and empty components are not re-attached on reassembly. -/
def splitAtChar (c : Char) (cs : List Char) : List Char × List Char :=
  ((cs.span fun x => x != c).1, (cs.span fun x => x != c).2.drop 1)

/-- Python `str.split('/')` on a character list (keeps empty pieces). -/
def splitOnSlashAux (cur : List Char) : List Char → List (List Char)
  | [] => [cur.reverse]
  | c :: rest =>
    if c = '/' then cur.reverse :: splitOnSlashAux [] rest
    else splitOnSlashAux (c :: cur) rest

/-- Python `path.split('/')`. -/
def splitOnSlash (cs : List Char) : List (List Char) :=
  splitOnSlashAux [] cs

/-- The slice assignment `segments[1:-1] = filter(None, segments[1:-1])`
applied to the tail of the segment list: drop empty segments except the
final one. -/
def filterKeepLast : List (List Char) → List (List Char)
  | [] => []
  | [z] => [z]
  | s :: rest => if s.isEmpty then filterKeepLast rest else s :: filterKeepLast rest

/-- `_splitparams`: split path params off the last path segment (the whole
path when it has no `/`); `(path, [])` when that segment has no `;`. -/
def splitParams (path : List Char) : List Char × List Char :=
  if path.contains '/' then
    let r := path.reverse.span fun c => c != '/'
    let lastSeg := r.1.reverse
    if lastSeg.contains ';' then
      let q := splitAtChar ';' lastSeg
      (r.2.reverse ++ q.1, q.2)
    else (path, [])
  else splitAtChar ';' path

/-- `urljoin`'s segment resolution loop: `..` pops the resolved path (a pop
from the empty path is ignored), `.` is skipped, anything else is pushed.
`acc` is the resolved path, reversed. -/
def resolveSegs (acc : List (List Char)) : List (List Char) → List (List Char)
  | [] => acc.reverse
  | s :: rest =>
    if s = "..".data then resolveSegs acc.tail rest
    else if s = ".".data then resolveSegs acc rest
    else resolveSegs (s :: acc) rest

/-- `urlunparse`/`urlunsplit` with scheme `https` (which is in
`uses_netloc`): re-attach non-empty params, authority (inserting `/` before
a relative path), query and fragment. -/
def unparseHttps (netloc path params query fragment : List Char) : List Char :=
  let u1 := if params.isEmpty then path else path ++ ';' :: params
  let u2 :=
    if !netloc.isEmpty || !("//".data.isPrefixOf u1) then
      '/' :: '/' ::
        (netloc ++ (if !u1.isEmpty && !("/".data.isPrefixOf u1) then '/' :: u1 else u1))
    else u1
  let u3 := if query.isEmpty then u2 else u2 ++ '?' :: query
  let u4 := if fragment.isEmpty then u3 else u3 ++ '#' :: fragment
  "https:".data ++ u4

/-- The `https`-scheme arm of `urljoin` against the base, applied to the
cleaned href with its scheme removed: parse authority, fragment, query and
params; an href with its own authority is reassembled as parsed; an empty
path with no params keeps the base origin (plus the href's query/fragment);
any other path is merged onto the base's empty path — middle empty segments
of a relative path dropped, `.`/`..` segments resolved, a trailing `.`/`..`
leaving a trailing slash, and an all-empty result becoming `/`. -/
def joinHttps (rest : List Char) : List Char :=
  let nl := if "//".data.isPrefixOf rest then splitNetlocChars (rest.drop 2)
            else ([], rest)
  let f := splitAtChar '#' nl.2
  let q := splitAtChar '?' f.1
  let pp := if (q.1).contains ';' then splitParams q.1 else (q.1, [])
  let comps :=
    if !nl.1.isEmpty then (nl.1, pp.1, pp.2)
    else if pp.1.isEmpty && pp.2.isEmpty then ("www.olx.in".data, [], [])
    else
      let segments :=
        if "/".data.isPrefixOf pp.1 then splitOnSlash pp.1
        else [] :: filterKeepLast (splitOnSlash pp.1)
      let res0 := resolveSegs [] segments
      let res :=
        if segments.getLast? = some ".".data || segments.getLast? = some "..".data
        then res0 ++ [[]] else res0
      let joined := List.intercalate "/".data res
      ("www.olx.in".data, if joined.isEmpty then "/".data else joined, pp.2)
  unparseHttps comps.1 comps.2.1 comps.2.2 q.2 f.2

/-- `urljoin('https://www.olx.in', href)`: the empty href yields the base;
an href whose (lower-cased) scheme is not `https` is returned verbatim;
everything else goes through the `https` joining arm on the cleaned href. -/
def urljoinOlx (href : String) : String :=
  if href = "" then "https://www.olx.in"
  else
    match splitScheme (removeUnsafe (lstripControlSpace href.data)) with
    | some p =>
      if p.1.map Char.toLower = "https".data then ⟨joinHttps p.2⟩ else href
    | none => ⟨joinHttps (removeUnsafe (lstripControlSpace href.data))⟩

/-- The authority `urlsplit` would extract from the href (after cleaning and
scheme removal); empty when the href has none. -/
def parsedNetloc (href : String) : List Char :=
  let rest :=
    match splitScheme (removeUnsafe (lstripControlSpace href.data)) with
    | some p => p.2
    | none => removeUnsafe (lstripControlSpace href.data)
  if "//".data.isPrefixOf rest then (splitNetlocChars (rest.drop 2)).1 else []

/-- The hrefs on which the library's `urljoin` is total and `urljoinOlx` is
its exact value: the parsed authority is ASCII and bracket-free.  Outside
this set `urlsplit` validates bracketed hosts and NFKC-normalises the
authority and may raise `ValueError` — which the extractor's `except` turns
into a skipped node. -/
def netlocSane (href : String) : Bool :=
  (parsedNetloc href).all fun c => c.toNat ≤ 127 && !(c = '[') && !(c = ']')

/-- Whether the string starts with a URL scheme (`letter scheme-chars* ':'`);
used by the spec-side absoluteness predicate. -/
def hasScheme (s : String) : Bool :=
  (splitScheme s.data).isSome

/-! ### Field extractor (`OLXScraper.extract_item_data`) -/

/-- One extracted listing record: the five string fields the scraper emits. -/
structure Record where
  title : String
  price : String
  location : String
  url : String
  image_url : String
deriving DecidableEq, Repr

/-- Python `value or 'N/A'` on an optional string: `None` and the empty
string both collapse to the sentinel. -/
def orNA : Option String → String
  | none => "N/A"
  | some s => if s = "" then "N/A" else s

/-- The `title_selectors` list: `['h6', '[data-aut-id="itemTitle"]',
'.title', 'h6._2caa7']`. -/
def title_selectors : List Selector :=
  [.tagName "h6", .attrEq "data-aut-id" "itemTitle", .clsTok "title",
   .tagCls "h6" "_2caa7"]

/-- The `price_selectors` list: `['span._2b6f3', '[data-aut-id="itemPrice"]',
'.price', 'span[class*="price"]']`. -/
def price_selectors : List Selector :=
  [.tagCls "span" "_2b6f3", .attrEq "data-aut-id" "itemPrice", .clsTok "price",
   .tagAttrSub "span" "class" "price"]

/-- The `location_selectors` list: `['span._2e28f',
'[data-aut-id="item-location"]', '.location']`. -/
def location_selectors : List Selector :=
  [.tagCls "span" "_2e28f", .attrEq "data-aut-id" "item-location",
   .clsTok "location"]

/-- The title/location loop: try each selector with `select_one`; the first
selector that finds an element yields that element's stripped text and the
loop breaks (with no validation of the text). -/
def firstFoundText (sels : List Selector) (card : Node) : Option String :=
  match sels with
  | [] => none
  | s :: rest =>
    match select_one s card with
    | some e => some e.getTextStrip
    | none => firstFoundText rest card

/-- Whether a price candidate text qualifies:
`'₹' in price_text or any(char.isdigit() for char in price_text)`. -/
def priceQualifies (t : String) : Bool :=
  t.data.any (· == '₹') || t.data.any Char.isDigit

/-- The price loop: try each selector with `select_one`; a found element
whose text contains the rupee sign or a digit is accepted and the loop
breaks; a found element whose text does not qualify is skipped and the next
selector is tried. -/
def priceLoop (sels : List Selector) (card : Node) : Option String :=
  match sels with
  | [] => none
  | s :: rest =>
    match select_one s card with
    | some e =>
      if priceQualifies e.getTextStrip then some e.getTextStrip
      else priceLoop rest card
    | none => priceLoop rest card

/-- `item_card.find('a', href=True)` followed by `['href']`: the href of the
first descendant anchor that carries an `href` attribute. -/
def findAnchorHref (card : Node) : Option String :=
  (card.descendants.find? fun n => n.tagIs "a" && (n.attr "href").isSome).bind
    (·.attr "href")

/-- The url field before the sentinel substitution:
`urljoin('https://www.olx.in', href) if not href.startswith('http') else href`. -/
def urlRaw (card : Node) : Option String :=
  (findAnchorHref card).map fun href =>
    if "http".data.isPrefixOf href.data then href else urljoinOlx href

/-- `item_card.find('img')` followed by the truthiness test on `.get('src')`:
a missing image, a missing `src` attribute, and an empty `src` all leave the
field unset. -/
def imgSrcRaw (card : Node) : Option String :=
  match card.descendants.find? (·.tagIs "img") with
  | some e =>
    match e.attr "src" with
    | some s => if s = "" then none else some s
    | none => none
  | none => none

/-- `OLXScraper.extract_item_data`: resolve the five fields independently,
substituting `"N/A"` for an unset (or empty) value.  The source wraps the
body in `try/except` returning `None` on a raised exception; no operation in
the pure tree model can raise, so the embedding always returns the record. -/
def extract_item_data (card : Node) : Record :=
  { title := orNA (firstFoundText title_selectors card)
    price := orNA (priceLoop price_selectors card)
    location := orNA (firstFoundText location_selectors card)
    url := orNA (urlRaw card)
    image_url := orNA (imgSrcRaw card) }

/-! ### Listing locator and page scraper (`OLXScraper.scrape_page`) -/

/-- The `card_selectors` list: `['[data-aut-id="itemBox"]', 'li.EIR5N',
'div._2fp1f', '.item-card', '[class*="item"]']`. -/
def card_selectors : List Selector :=
  [.attrEq "data-aut-id" "itemBox", .tagCls "li" "EIR5N",
   .tagCls "div" "_2fp1f", .clsTok "item-card", .attrSub "class" "item"]

/-- The locator loop: run `soup.select` for each card selector in order and
break at the first non-empty result; all selectors failing leaves the
result empty. -/
def firstNonEmptySelect (sels : List Selector) (doc : Node) : List Node :=
  match sels with
  | [] => []
  | s :: rest =>
    let items := select s doc
    if items.isEmpty then firstNonEmptySelect rest doc else items

/-- The locator fallback
`soup.find_all(['div', 'li'], string=lambda text: text and 'car' in
text.lower() if text else False)`: every `div` or `li` element whose
`Tag.string` is present, non-empty, and contains `"car"` case-insensitively. -/
def fallbackTextScan (doc : Node) : List Node :=
  doc.descendants.filter fun n =>
    (n.tagIs "div" || n.tagIs "li") &&
      match n.nodeString with
      | some t => !t.data.isEmpty && containsSub "car".data (t.data.map Char.toLower)
      | none => false

/-- The listing locator of `scrape_page` (lines 108–128): the first card
selector with a non-empty match set wins; only if every selector matches
nothing is the text-scan fallback consulted. -/
def locateListings (doc : Node) : List Node :=
  let items_found := firstNonEmptySelect card_selectors doc
  if items_found.isEmpty then fallbackTextScan doc else items_found

/-- The outcome of fetching and parsing one page, the environment input of
`scrape_page`: a 2xx response parsed into a document, a non-2xx status
(`raise_for_status` throws `requests.HTTPError`, a `RequestException`), or
any other `requests.RequestException` raised during the GET. -/
inductive FetchResult where
  | success (doc : Node)
  | httpError (status : Nat)
  | netError

/-- `OLXScraper.scrape_page`, parameterised by the fetch environment: on a
successful fetch, locate the listings, extract each one, and keep exactly
the records whose title is not the sentinel; both `except` arms (network
errors and any other exception) return the empty page result. -/
def scrape_page (fetch : Nat → FetchResult) (page_num : Nat) : List Record :=
  match fetch page_num with
  | .success doc =>
    (locateListings doc).filterMap fun card =>
      if (extract_item_data card).title ≠ "N/A" then some (extract_item_data card)
      else none
  | .httpError _ => []
  | .netError => []

/-! ### Aggregator (`OLXScraper.scrape_multiple_pages`) -/

/-- Observable steps of the aggregator loop: a `scrape_page(page)` call and
a `time.sleep(self.delay)` pause. -/
inductive Event where
  | visit (page : Nat)
  | sleep
deriving DecidableEq, Repr

/-- One iteration of the aggregator's `for page in range(1, max_pages + 1)`
loop: extend the accumulated records with the page's results and, when
`page < max_pages`, sleep before the next iteration. -/
def pageStep (fetch : Nat → FetchResult) (max_pages : Nat)
    (acc : List Record × List Event) (page : Nat) : List Record × List Event :=
  (acc.1 ++ scrape_page fetch page,
   acc.2 ++ Event.visit page :: if page < max_pages then [Event.sleep] else [])

/-- `OLXScraper.scrape_multiple_pages`, instrumented with the event trace of
page visits and inter-page sleeps: fold the loop body over the page numbers
`1, …, max_pages`. -/
def scrapeRun (fetch : Nat → FetchResult) (max_pages : Nat) :
    List Record × List Event :=
  (List.range' 1 max_pages).foldl (pageStep fetch max_pages) ([], [])

/-- The record list returned by `scrape_multiple_pages`. -/
def scrape_multiple_pages (fetch : Nat → FetchResult) (max_pages : Nat) :
    List Record :=
  (scrapeRun fetch max_pages).1

/-! ### Exporters (`save_to_csv`, `save_to_json`)

File output is abstracted to the pair (path, content): the CSV content is
its list of rows (header first, `csv.DictWriter` with the fixed fieldname
order), the JSON content is the record list that `json.dump` serialises.
An empty record list short-circuits before any filesystem access — the
method logs and returns `None`, modelled as `none`. -/

/-- The CSV `fieldnames` (also the JSON object key order). -/
def fieldnames : List String :=
  ["title", "price", "location", "url", "image_url"]

/-- One CSV data row of a record, in `fieldnames` order. -/
def recordRow (r : Record) : List String :=
  [r.title, r.price, r.location, r.url, r.image_url]

/-- `OLXScraper.save_to_csv`: `none` when there are no results (no file, no
path); otherwise the path `output/<filename>` and the header row followed by
one row per record. -/
def save_to_csv (results : List Record) (filename : String) :
    Option (String × List (List String)) :=
  if results.isEmpty then none
  else some ("output/" ++ filename, fieldnames :: results.map recordRow)

/-- `OLXScraper.save_to_json`: `none` when there are no results (no file, no
path); otherwise the path `output/<filename>` and the serialised record
list. -/
def save_to_json (results : List Record) (filename : String) :
    Option (String × List Record) :=
  if results.isEmpty then none
  else some ("output/" ++ filename, results)

/-! ### Page URL (`OLXScraper.get_page_url`) -/

/-- `OLXScraper.get_page_url`: the base URL itself for page 1, otherwise
`f"{self.base_url}?page={page_num}"`. -/
def get_page_url (base_url : String) (page_num : Nat) : String :=
  if page_num = 1 then base_url
  else base_url ++ "?page=" ++ natToString page_num

/-! ### Spec-side definitions

Definitions written from the specification's words, to be compared against
the code's behaviour. -/

/-- The price-candidate texts a listing node offers, in selector order: one
per price selector that finds an element (a selector finding nothing is
skipped, exactly as the extraction loop moves on). -/
def priceCandidates (card : Node) : List String :=
  price_selectors.filterMap fun s => (select_one s card).map (·.getTextStrip)

/-- Follows the spec's words ("an already-absolute href", §4.3/C5): a URL is
absolute when it carries its own scheme (RFC 3986 `scheme ':' …`). -/
def specIsAbsoluteUrl (s : String) : Bool :=
  hasScheme s

/-! ### Concrete fixtures (synthetic inputs used by witness theorems) -/

/-- A well-formed listing card: title, rupee price, location, relative link,
image. -/
def sampleCard : Node :=
  .elem "div" [("data-aut-id", "itemBox")]
    [.elem "h6" [] [.text " Car Cover XL "],
     .elem "span" [("class", "_2b6f3")] [.text "₹ 1,299"],
     .elem "span" [("class", "_2e28f")] [.text "Mumbai"],
     .elem "a" [("href", "/item/car-cover-123")] [.text "view"],
     .elem "img" [("src", "https://img.olx.in/1.jpg")] []]

/-- A one-card synthetic page document. -/
def sampleDoc : Node :=
  .elem "html" [] [.elem "body" [] [sampleCard]]

/-- A fetch environment in which every page succeeds with `sampleDoc`. -/
def sampleFetch : Nat → FetchResult :=
  fun _ => .success sampleDoc

/-- A card whose anchor href is relative yet starts with the literal
`"http"`. -/
def httpxCard : Node :=
  .elem "div" [] [.elem "a" [("href", "httpx")] [.text "view"]]

/-- A card whose `h6` title element matches the first title selector but
contains no text at all. -/
def emptyTitleCard : Node :=
  .elem "div" [] [.elem "h6" [] [], .elem "span" [("class", "_2b6f3")] [.text "₹ 5"]]

/-- A fetch environment serving a page holding only `emptyTitleCard`. -/
def emptyTitleFetch : Nat → FetchResult :=
  fun _ => .success (.elem "html" [] [emptyTitleCard])

/-- A document matched by the second card selector (`li.EIR5N`) but not the
first. -/
def secondSelDoc : Node :=
  .elem "html" [] [.elem "li" [("class", "EIR5N")] [.elem "h6" [] [.text "Car cover"]]]

/-- A document no card selector matches, containing a `div` whose string
mentions "Car". -/
def fallbackDoc : Node :=
  .elem "html" [] [.elem "div" [] [.text "Best Car deals"]]

/-- A fetch environment that fails on every page: a 404 status on page 1 and
a transport error elsewhere. -/
def errFetch : Nat → FetchResult :=
  fun p => if p = 1 then .httpError 404 else .netError

/-! ## Helper lemmas -/

/-- Two strings with the same character data are equal. -/
theorem string_data_ext {s t : String} (h : s.data = t.data) : s = t := by
  cases s
  cases t
  exact congrArg String.mk h

/-- On a positive input the fuel-driven digit loop produces exactly the
base-10 digit string of its argument (most significant first), in front of
the accumulator, as soon as the fuel exceeds the input. -/
theorem decDigits_eq_digits :
    ∀ n : Nat, 0 < n → ∀ (fuel : Nat) (acc : List Char), n < fuel →
      decDigits fuel n acc = ((Nat.digits 10 n).reverse.map Nat.digitChar) ++ acc := by
  intro n
  induction n using Nat.strong_induction_on with
  | _ n ih =>
    intro hn fuel acc hfuel
    match fuel, hfuel with
    | fuel + 1, _ =>
      rw [decDigits]
      by_cases h10 : n < 10
      · rw [if_pos h10, Nat.digits_def' (by norm_num : (1 : ℕ) < 10) hn,
          Nat.div_eq_of_lt h10, Nat.mod_eq_of_lt h10]
        simp
      · rw [if_neg h10]
        have hq : 0 < n / 10 := Nat.div_pos (le_of_not_lt h10) (by norm_num)
        have hlt : n / 10 < n := Nat.div_lt_self hn (by norm_num)
        rw [ih (n / 10) hlt hq fuel _ (by omega),
          Nat.digits_def' (by norm_num : (1 : ℕ) < 10) hn]
        simp

/-- `natToString` of a positive number is its base-10 digit string. -/
theorem natToString_eq_digits (n : Nat) (hn : 0 < n) :
    natToString n = ⟨(Nat.digits 10 n).reverse.map Nat.digitChar⟩ := by
  unfold natToString
  rw [decDigits_eq_digits n hn (n + 1) [] (by omega)]
  simp

/-- `Nat.digitChar` tells apart any two digits below 10. -/
theorem digitChar_inj_lt : ∀ a < 10, ∀ b < 10,
    Nat.digitChar a = Nat.digitChar b → a = b := by decide

/-- Mapping `Nat.digitChar` over lists of digits below 10 is injective. -/
theorem map_digitChar_inj :
    ∀ l₁ l₂ : List Nat, (∀ x ∈ l₁, x < 10) → (∀ x ∈ l₂, x < 10) →
      l₁.map Nat.digitChar = l₂.map Nat.digitChar → l₁ = l₂ := by
  intro l₁
  induction l₁ with
  | nil =>
    intro l₂ _ _ h
    cases l₂ <;> simp_all
  | cons a t ihl =>
    intro l₂ h₁ h₂ h
    cases l₂ with
    | nil => simp_all
    | cons b t₂ =>
      simp only [List.map_cons, List.cons.injEq] at h
      have hab : a = b :=
        digitChar_inj_lt a (h₁ a (by simp)) b (h₂ b (by simp)) h.1
      subst hab
      rw [ihl t₂ (fun x hx => h₁ x (by simp [hx])) (fun x hx => h₂ x (by simp [hx])) h.2]

/-- `natToString` is injective on positive numbers. -/
theorem natToString_inj (m n : Nat) (hm : 0 < m) (hn : 0 < n)
    (h : natToString m = natToString n) : m = n := by
  rw [natToString_eq_digits m hm, natToString_eq_digits n hn] at h
  have hdata := congrArg String.data h
  simp only [] at hdata
  have hrev : (Nat.digits 10 m).reverse = (Nat.digits 10 n).reverse :=
    map_digitChar_inj _ _
      (fun x hx => Nat.digits_lt_base (by norm_num) (List.mem_reverse.mp hx))
      (fun x hx => Nat.digits_lt_base (by norm_num) (List.mem_reverse.mp hx)) hdata
  exact Nat.digits_inj_iff.mp (List.reverse_inj.mp hrev)

/-! ## C2 — page URL construction -/

/-- C2: for page number 1 the fetch URL is exactly the base URL, with no
query string appended; for every page number `k > 1` it is the base URL
followed by the literal `"?page="` followed by the decimal rendering of
`k`. -/
theorem get_page_url_spec (base : String) (k : Nat) :
    get_page_url base 1 = base ∧
    (1 < k → get_page_url base k = base ++ "?page=" ++ natToString k) := by
  refine ⟨by simp [get_page_url], fun hk => ?_⟩
  have : k ≠ 1 := by omega
  simp [get_page_url, this]

/-- Witness for C2 at the scraper's default base URL and page 7. -/
theorem get_page_url_spec_witness :
    get_page_url "https://www.olx.in/items/q-car-cover" 1 =
      "https://www.olx.in/items/q-car-cover" ∧
    get_page_url "https://www.olx.in/items/q-car-cover" 7 =
      "https://www.olx.in/items/q-car-cover" ++ "?page=" ++ natToString 7 :=
  ⟨(get_page_url_spec "https://www.olx.in/items/q-car-cover" 7).1,
   (get_page_url_spec "https://www.olx.in/items/q-car-cover" 7).2 (by decide)⟩

/-! ## C10 — page URLs are injective in the page number -/

/-- C10: for a fixed base URL, distinct page numbers `≥ 1` always yield
distinct URL strings, and the page-1 URL is a strict prefix of every
paginated URL (the appended `"?page=" ++ k` suffix is non-empty). -/
theorem get_page_url_injective (base : String) (j k : Nat)
    (hj : 1 ≤ j) (hk : 1 ≤ k) :
    (j ≠ k → get_page_url base j ≠ get_page_url base k) ∧
    (1 < k → ∃ s, s ≠ "" ∧ get_page_url base k = get_page_url base 1 ++ s) := by
  have hbase : ∀ m : Nat, 1 < m →
      get_page_url base m = base ++ "?page=" ++ natToString m := by
    intro m hm
    have : m ≠ 1 := by omega
    simp [get_page_url, this]
  have hne : ∀ m : Nat, 1 < m → base ≠ base ++ "?page=" ++ natToString m := by
    intro m _ h
    have hd := congrArg String.data h
    rw [String.data_append, String.data_append] at hd
    rw [List.append_assoc] at hd
    have h0 : "?page=".data ++ (natToString m).data = [] :=
      (List.append_right_eq_self.mp hd.symm)
    simp at h0
  constructor
  · intro hjk
    rcases Nat.lt_or_ge 1 j with hj1 | hj1
    · rcases Nat.lt_or_ge 1 k with hk1 | hk1
      · intro h
        rw [hbase j hj1, hbase k hk1] at h
        have hd := congrArg String.data h
        rw [String.data_append, String.data_append, String.data_append,
          String.data_append] at hd
        have : (natToString j).data = (natToString k).data :=
          List.append_cancel_left hd
        exact hjk (natToString_inj j k (by omega) (by omega) (string_data_ext this))
      · have hk1' : k = 1 := by omega
        subst hk1'
        intro h
        simp only [get_page_url, if_pos rfl] at h
        exact hne j hj1 (h.symm.trans (hbase j hj1))
    · have hj1' : j = 1 := by omega
      subst hj1'
      intro h
      have hk1 : 1 < k := by omega
      simp only [get_page_url, if_pos rfl] at h
      exact hne k hk1 (h.trans (hbase k hk1))
  · intro hk1
    refine ⟨"?page=" ++ natToString k, ?_, ?_⟩
    · intro h
      have hd := congrArg String.data h
      rw [String.data_append] at hd
      simp at hd
    · have h1 : get_page_url base 1 = base := by simp [get_page_url]
      rw [hbase k hk1, h1, String.append_assoc]

/-! ## C8 — exporters are no-ops on an empty record list -/

/-- C8: with an empty accumulated record list, both exporters produce no
output file and return no path (in the pure model: the result is `none`,
carrying neither a path nor file content; the guard returns before any
filesystem access, so nothing can raise). -/
theorem exporters_noop_on_empty (csvName jsonName : String) :
    save_to_csv [] csvName = none ∧ save_to_json [] jsonName = none := by
  constructor <;> rfl

/-! ## C4 — price candidate acceptance -/

/-- No qualifying price text is empty: it contains a rupee sign or a digit. -/
theorem priceQualifies_ne_empty {t : String} (h : priceQualifies t = true) :
    t ≠ "" := by
  intro he
  subst he
  simp [priceQualifies] at h

/-- The price loop returns the first candidate text that qualifies, where
the candidates are the texts of the elements the selectors find, in order. -/
theorem priceLoop_eq_find (sels : List Selector) (card : Node) :
    priceLoop sels card =
      (sels.filterMap fun s => (select_one s card).map (·.getTextStrip)).find?
        priceQualifies := by
  induction sels with
  | nil => rfl
  | cons s rest ihs =>
    rw [priceLoop, List.filterMap_cons]
    cases h : select_one s card with
    | none => simpa using ihs
    | some e =>
      simp only [Option.map_some']
      rw [List.find?]
      by_cases hq : priceQualifies e.getTextStrip
      · simp [hq]
      · simp only [hq, Bool.false_eq_true, if_false, cond_false]
        simpa [hq] using ihs

/-- C4: a price selector candidate whose text has no currency symbol (the
rupee sign — the one currency the site and the code use) and no digit is
rejected and the next candidate is tried; the first candidate whose text
contains a digit or the currency symbol is accepted as the price; if no
candidate qualifies the price field is the sentinel `"N/A"`. -/
theorem price_selection_spec (card : Node) :
    (extract_item_data card).price =
      ((priceCandidates card).find? priceQualifies).getD "N/A" := by
  show orNA (priceLoop price_selectors card) = _
  rw [priceLoop_eq_find]
  show orNA ((priceCandidates card).find? priceQualifies) = _
  cases h : (priceCandidates card).find? priceQualifies with
  | none => rfl
  | some t =>
    have hq : priceQualifies t = true := List.find?_some h
    simp [orNA, priceQualifies_ne_empty hq]

/-! ## C5 — URL resolution (corrected) -/

/-- Appending to a string with non-empty data never yields the empty
string. -/
theorem string_append_ne_empty (a b : String) (ha : a.data ≠ []) :
    a ++ b ≠ "" := by
  intro h
  have hd := congrArg String.data h
  rw [String.data_append] at hd
  exact ha (List.append_eq_nil.mp hd).1

/-- `urlunsplit` with the `https:` scheme prefix never yields the empty
character list. -/
theorem unparseHttps_ne_nil (netloc path params query fragment : List Char) :
    unparseHttps netloc path params query fragment ≠ [] := by
  intro h
  exact List.cons_ne_nil _ _ h

/-- The `https` joining arm always produces a non-empty character list. -/
theorem joinHttps_ne_nil (rest : List Char) : joinHttps rest ≠ [] :=
  unparseHttps_ne_nil _ _ _ _ _

/-- A string built from a non-empty character list is not the empty
string. -/
theorem mk_ne_empty {cs : List Char} (h : cs ≠ []) : (⟨cs⟩ : String) ≠ "" :=
  fun he => h (congrArg String.data he)

/-- Every result of the modelled `urljoin` against the base origin is a
non-empty string. -/
theorem urljoinOlx_ne_empty (href : String) : urljoinOlx href ≠ "" := by
  unfold urljoinOlx
  split
  · decide
  · rename_i hne
    split
    · split
      · exact mk_ne_empty (joinHttps_ne_nil _)
      · exact hne
    · exact mk_ne_empty (joinHttps_ne_nil _)

/-- Counterexample to C5 as stated: the relative href `"httpx"` (no scheme,
hence not an absolute URL) is NOT resolved against the base origin — the
code's `startswith('http')` test passes it through unchanged. -/
theorem url_resolution_counterexample :
    specIsAbsoluteUrl "httpx" = false ∧
    findAnchorHref httpxCard = some "httpx" ∧
    (extract_item_data httpxCard).url = "httpx" ∧
    (extract_item_data httpxCard).url ≠ urljoinOlx "httpx" := by
  refine ⟨rfl, rfl, rfl, ?_⟩
  decide

/-- C5 as amended: for a listing node whose first anchor carries href `h`
(restricted to hrefs the library's `urljoin` accepts without raising: an
ASCII, bracket-free authority — elsewhere the extractor's `except` skips
the node and no record is produced), the record's url field is `h` itself
whenever `h` starts with the literal `"http"` (whether or not `h` is an
absolute URL), and `urljoin('https://www.olx.in', h)` otherwise. -/
theorem url_resolution_amended (card : Node) (href : String)
    (h : findAnchorHref card = some href) (hok : netlocSane href = true) :
    (extract_item_data card).url =
      if "http".data.isPrefixOf href.data then href else urljoinOlx href := by
  show orNA (urlRaw card) = _
  rw [urlRaw, h]
  by_cases hp : "http".data <+: href.data
  · have hne : href ≠ "" := by
      intro he
      subst he
      simp at hp
    simp [orNA, hp, hne]
  · simp [orNA, hp, urljoinOlx_ne_empty href]

/-- Witness for the amended C5, covering both branches: the pass-through of
an href starting with `"http"` (on `httpxCard`) and the base-origin
resolution of the relative href of `sampleCard`. -/
theorem url_resolution_amended_witness :
    (extract_item_data httpxCard).url =
      (if "http".data.isPrefixOf "httpx".data then "httpx"
       else urljoinOlx "httpx") ∧
    (extract_item_data sampleCard).url =
      (if "http".data.isPrefixOf "/item/car-cover-123".data
       then "/item/car-cover-123" else urljoinOlx "/item/car-cover-123") :=
  ⟨url_resolution_amended httpxCard "httpx" rfl (by decide),
   url_resolution_amended sampleCard "/item/car-cover-123" rfl (by decide)⟩

/-! ## C9 — extracted records: field shape and sentinel substitution -/

/-- The sentinel substitution never produces the empty string. -/
theorem orNA_ne_empty (o : Option String) : orNA o ≠ "" := by
  cases o with
  | none => decide
  | some s =>
    by_cases h : s = "" <;> simp only [orNA, h, if_true, if_pos, if_neg, reduceIte] <;>
      first
        | decide
        | exact h

/-- Any record found in a page result has a non-sentinel title: the page
loop keeps a record only after the `title != 'N/A'` test. -/
theorem scrape_page_title_mem (fetch : Nat → FetchResult) (p : Nat) (r : Record)
    (h : r ∈ scrape_page fetch p) : r.title ≠ "N/A" := by
  unfold scrape_page at h
  cases hf : fetch p with
  | success doc =>
    rw [hf, List.mem_filterMap] at h
    obtain ⟨card, _, hc⟩ := h
    split at hc
    · rename_i ht
      injection hc with hc
      exact hc ▸ ht
    · exact Option.noConfusion hc
  | httpError s =>
    rw [hf] at h
    cases h
  | netError =>
    rw [hf] at h
    cases h

/-- Any located listing whose extracted record has a non-sentinel title is
kept in the page result. -/
theorem scrape_page_retains (fetch : Nat → FetchResult) (p : Nat)
    (doc card : Node) (hf : fetch p = .success doc)
    (hc : card ∈ locateListings doc)
    (ht : (extract_item_data card).title ≠ "N/A") :
    extract_item_data card ∈ scrape_page fetch p := by
  unfold scrape_page
  rw [hf, List.mem_filterMap]
  exact ⟨card, hc, by simp [ht]⟩

/-- C9: an extracted record always carries the five fields as non-empty
strings (an unresolved or empty extracted value becomes the sentinel
`"N/A"`); in particular a title element that matches a selector but holds
only empty text yields title `"N/A"`, and a record with sentinel title is
never kept in any page result. -/
theorem extractor_record_shape (card : Node) :
    (extract_item_data card).title ≠ "" ∧
    (extract_item_data card).price ≠ "" ∧
    (extract_item_data card).location ≠ "" ∧
    (extract_item_data card).url ≠ "" ∧
    (extract_item_data card).image_url ≠ "" ∧
    (firstFoundText title_selectors card = some "" →
      (extract_item_data card).title = "N/A") ∧
    ((extract_item_data card).title = "N/A" →
      ∀ (fetch : Nat → FetchResult) (page_num : Nat),
        extract_item_data card ∉ scrape_page fetch page_num) := by
  refine ⟨orNA_ne_empty _, orNA_ne_empty _, orNA_ne_empty _, orNA_ne_empty _,
    orNA_ne_empty _, ?_, ?_⟩
  · intro h
    show orNA (firstFoundText title_selectors card) = "N/A"
    rw [h]
    rfl
  · intro hNA fetch page_num hmem
    exact scrape_page_title_mem fetch page_num _ hmem hNA

/-- Witness for C9: the card whose `h6` title element is empty gets the
sentinel title, a non-empty price, and is dropped from its page's results. -/
theorem extractor_record_shape_witness :
    (extract_item_data emptyTitleCard).title = "N/A" ∧
    (extract_item_data emptyTitleCard).price ≠ "" ∧
    extract_item_data emptyTitleCard ∉ scrape_page emptyTitleFetch 1 :=
  ⟨(extractor_record_shape emptyTitleCard).2.2.2.2.2.1 rfl,
   (extractor_record_shape emptyTitleCard).2.1,
   (extractor_record_shape emptyTitleCard).2.2.2.2.2.2
     ((extractor_record_shape emptyTitleCard).2.2.2.2.2.1 rfl) emptyTitleFetch 1⟩

/-! ## C6 — listing locator: ordered selectors, then fallback -/

/-- C6: the locator tries the five card selectors in order and returns the
match set of the first one that matches at least one node, never consulting
the later ones; when every selector matches nothing it returns the
text-scan fallback's nodes; and when even the fallback finds nothing it
returns the empty list (never an error — the function is total). -/
theorem locate_listings_spec (doc : Node) :
    (∀ (i : Nat) (s : Selector), card_selectors[i]? = some s →
      (∀ (j : Nat) (t : Selector), j < i → card_selectors[j]? = some t →
        select t doc = []) →
      (select s doc).isEmpty = false →
      locateListings doc = select s doc) ∧
    ((∀ s ∈ card_selectors, select s doc = []) →
      locateListings doc = fallbackTextScan doc) ∧
    ((∀ s ∈ card_selectors, select s doc = []) → fallbackTextScan doc = [] →
      locateListings doc = []) := by
  refine ⟨?_, ?_, ?_⟩
  · intro i s hs hprev hne
    have hi : i < 5 := by
      rcases List.getElem?_eq_some.mp hs with ⟨hlt, -⟩
      exact hlt
    have e0 : 0 < i → select (Selector.attrEq "data-aut-id" "itemBox") doc = [] :=
      fun hlt => hprev 0 _ hlt rfl
    have e1 : 1 < i → select (Selector.tagCls "li" "EIR5N") doc = [] :=
      fun hlt => hprev 1 _ hlt rfl
    have e2 : 2 < i → select (Selector.tagCls "div" "_2fp1f") doc = [] :=
      fun hlt => hprev 2 _ hlt rfl
    have e3 : 3 < i → select (Selector.clsTok "item-card") doc = [] :=
      fun hlt => hprev 3 _ hlt rfl
    interval_cases i
    · have hs' : Selector.attrEq "data-aut-id" "itemBox" = s := Option.some.inj hs
      subst hs'
      simp [locateListings, firstNonEmptySelect, card_selectors, hne]
    · have hs' : Selector.tagCls "li" "EIR5N" = s := Option.some.inj hs
      subst hs'
      simp [locateListings, firstNonEmptySelect, card_selectors,
        e0 (by omega), hne]
    · have hs' : Selector.tagCls "div" "_2fp1f" = s := Option.some.inj hs
      subst hs'
      simp [locateListings, firstNonEmptySelect, card_selectors,
        e0 (by omega), e1 (by omega), hne]
    · have hs' : Selector.clsTok "item-card" = s := Option.some.inj hs
      subst hs'
      simp [locateListings, firstNonEmptySelect, card_selectors,
        e0 (by omega), e1 (by omega), e2 (by omega), hne]
    · have hs' : Selector.attrSub "class" "item" = s := Option.some.inj hs
      subst hs'
      simp [locateListings, firstNonEmptySelect, card_selectors,
        e0 (by omega), e1 (by omega), e2 (by omega), e3 (by omega), hne]
  · intro hall
    have e0 := hall (.attrEq "data-aut-id" "itemBox") (by simp [card_selectors])
    have e1 := hall (.tagCls "li" "EIR5N") (by simp [card_selectors])
    have e2 := hall (.tagCls "div" "_2fp1f") (by simp [card_selectors])
    have e3 := hall (.clsTok "item-card") (by simp [card_selectors])
    have e4 := hall (.attrSub "class" "item") (by simp [card_selectors])
    simp [locateListings, firstNonEmptySelect, card_selectors, e0, e1, e2, e3, e4]
  · intro hall hfb
    have e0 := hall (.attrEq "data-aut-id" "itemBox") (by simp [card_selectors])
    have e1 := hall (.tagCls "li" "EIR5N") (by simp [card_selectors])
    have e2 := hall (.tagCls "div" "_2fp1f") (by simp [card_selectors])
    have e3 := hall (.clsTok "item-card") (by simp [card_selectors])
    have e4 := hall (.attrSub "class" "item") (by simp [card_selectors])
    simp [locateListings, firstNonEmptySelect, card_selectors, e0, e1, e2, e3, e4,
      hfb]

/-- Witness for C6: a document whose first matching card selector is the
second one (`li.EIR5N`), a document only the text-scan fallback matches,
and an empty document on which the locator returns the empty list. -/
theorem locate_listings_spec_witness :
    locateListings secondSelDoc = select (.tagCls "li" "EIR5N") secondSelDoc ∧
    locateListings fallbackDoc = fallbackTextScan fallbackDoc ∧
    locateListings (Node.elem "html" [] []) = [] :=
  ⟨(locate_listings_spec secondSelDoc).1 1 (.tagCls "li" "EIR5N") rfl
      (by
        intro j t hj ht
        interval_cases j
        have h0 : Selector.attrEq "data-aut-id" "itemBox" = t := Option.some.inj ht
        subst h0
        rfl)
      rfl,
   (locate_listings_spec fallbackDoc).2.1
      (by
        intro s hs
        fin_cases hs <;> rfl),
   (locate_listings_spec (Node.elem "html" [] [])).2.2
      (by
        intro s hs
        fin_cases hs <;> rfl)
      rfl⟩

/-! ## C3 — aggregator schedule, ordering and inter-page delay -/

/-- Folding the aggregator's loop step over any page list appends the
pages' results and their trace blocks to the accumulator. -/
theorem pageStep_foldl (fetch : Nat → FetchResult) (mp : Nat)
    (l : List Nat) (acc : List Record × List Event) :
    l.foldl (pageStep fetch mp) acc =
      (acc.1 ++ (l.map (scrape_page fetch)).flatten,
       acc.2 ++ (l.map fun p =>
         Event.visit p :: if p < mp then [Event.sleep] else []).flatten) := by
  induction l generalizing acc with
  | nil => simp
  | cons p rest ih =>
    rw [List.foldl_cons, ih]
    simp [pageStep, List.flatten_cons, List.append_assoc]

/-- `scrape_multiple_pages` concatenates the per-page results over pages
`1 … max_pages`. -/
theorem scrape_multiple_pages_eq (fetch : Nat → FetchResult) (mp : Nat) :
    scrape_multiple_pages fetch mp =
      ((List.range' 1 mp).map (scrape_page fetch)).flatten := by
  unfold scrape_multiple_pages scrapeRun
  rw [pageStep_foldl]
  simp

/-- C3: for every `maxPages ≥ 1` the aggregator attempts pages
`1 … maxPages` in order with no early termination — the trace holds every
page's visit regardless of that page's yield — the returned list is the
concatenation of the per-page results in increasing page order, and the
inter-page sleep happens exactly after every page except the last. -/
theorem aggregator_schedule_spec (fetch : Nat → FetchResult) (mp : Nat)
    (_hmp : 1 ≤ mp) :
    scrape_multiple_pages fetch mp =
      ((List.range' 1 mp).map (scrape_page fetch)).flatten ∧
    (scrapeRun fetch mp).2 =
      ((List.range' 1 mp).map fun p =>
        Event.visit p :: if p < mp then [Event.sleep] else []).flatten ∧
    (∀ p, 1 ≤ p → p ≤ mp → Event.visit p ∈ (scrapeRun fetch mp).2) := by
  refine ⟨scrape_multiple_pages_eq fetch mp, ?_, ?_⟩
  · unfold scrapeRun
    rw [pageStep_foldl]
    simp
  · intro p h1 h2
    unfold scrapeRun
    rw [pageStep_foldl]
    simp only [List.nil_append]
    rw [List.mem_flatten]
    exact ⟨Event.visit p :: if p < mp then [Event.sleep] else [],
      List.mem_map_of_mem _ (List.mem_range'_1.mpr ⟨h1, by omega⟩), by simp⟩

/-- Witness for C3 on a two-page run whose fetches all fail: both pages are
still visited. -/
theorem aggregator_schedule_spec_witness :
    scrape_multiple_pages errFetch 2 =
      ((List.range' 1 2).map (scrape_page errFetch)).flatten ∧
    Event.visit 2 ∈ (scrapeRun errFetch 2).2 :=
  ⟨(aggregator_schedule_spec errFetch 2 (by decide)).1,
   (aggregator_schedule_spec errFetch 2 (by decide)).2.2 2 (by decide) (by decide)⟩

/-! ## C7 — page-scope error containment -/

/-- C7: a non-2xx HTTP status (raised by `raise_for_status`) or any other
exception during fetch is caught at page scope: that page contributes the
empty result list, and the aggregate output is still the concatenation over
all requested pages — the run is never aborted.  (A record-level exception
inside the extractor cannot arise in the pure tree model, where extraction
is total; its `except` arm returning no record is therefore vacuous here.) -/
theorem page_errors_contained (fetch : Nat → FetchResult) (p st mp : Nat) :
    (fetch p = .httpError st → scrape_page fetch p = []) ∧
    (fetch p = .netError → scrape_page fetch p = []) ∧
    scrape_multiple_pages fetch mp =
      ((List.range' 1 mp).map (scrape_page fetch)).flatten := by
  refine ⟨?_, ?_, scrape_multiple_pages_eq fetch mp⟩
  · intro h
    unfold scrape_page
    rw [h]
  · intro h
    unfold scrape_page
    rw [h]

/-- Witness for C7: under `errFetch` page 1 (a 404) and page 2 (a transport
error) both yield empty page results, while a 3-page run still aggregates
all three pages. -/
theorem page_errors_contained_witness :
    scrape_page errFetch 1 = [] ∧
    scrape_page errFetch 2 = [] ∧
    scrape_multiple_pages errFetch 3 =
      ((List.range' 1 3).map (scrape_page errFetch)).flatten :=
  ⟨(page_errors_contained errFetch 1 404 3).1 rfl,
   (page_errors_contained errFetch 2 404 3).2.1 rfl,
   (page_errors_contained errFetch 2 404 3).2.2⟩

/-! ## C1 — the aggregate output retains exactly the titled records -/

/-- C1: for every fetch environment, every record in the aggregator's final
output has a non-sentinel title; conversely, every listing extracted with a
non-sentinel title from a successfully fetched page in range is retained in
the final output. -/
theorem aggregator_title_invariant (fetch : Nat → FetchResult) (mp : Nat) :
    (∀ r ∈ scrape_multiple_pages fetch mp, r.title ≠ "N/A") ∧
    (∀ (p : Nat) (doc : Node), 1 ≤ p → p ≤ mp → fetch p = .success doc →
      ∀ card ∈ locateListings doc,
        (extract_item_data card).title ≠ "N/A" →
        extract_item_data card ∈ scrape_multiple_pages fetch mp) := by
  constructor
  · intro r hr
    rw [scrape_multiple_pages_eq, List.mem_flatten] at hr
    obtain ⟨l, hl, hrl⟩ := hr
    rw [List.mem_map] at hl
    obtain ⟨p, -, rfl⟩ := hl
    exact scrape_page_title_mem fetch p r hrl
  · intro p doc h1 h2 hf card hcard ht
    rw [scrape_multiple_pages_eq, List.mem_flatten]
    exact ⟨scrape_page fetch p,
      List.mem_map_of_mem _ (List.mem_range'_1.mpr ⟨h1, by omega⟩),
      scrape_page_retains fetch p doc card hf hcard ht⟩

/-- Witness for C1: the sample card's record has a real title and appears
in the output of a one-page run serving the sample document. -/
theorem aggregator_title_invariant_witness :
    (extract_item_data sampleCard).title ≠ "N/A" ∧
    extract_item_data sampleCard ∈ scrape_multiple_pages sampleFetch 1 :=
  ⟨by decide,
   (aggregator_title_invariant sampleFetch 1).2 1 sampleDoc (by decide)
     (by decide) rfl sampleCard (List.mem_cons_self _ _) (by decide)⟩

/-- Witness for C10: pages 2 and 3 of the default base URL give different
URLs, and page 3's URL strictly extends the page-1 URL. -/
theorem get_page_url_injective_witness :
    get_page_url "https://www.olx.in/items/q-car-cover" 2 ≠
      get_page_url "https://www.olx.in/items/q-car-cover" 3 ∧
    ∃ s, s ≠ "" ∧
      get_page_url "https://www.olx.in/items/q-car-cover" 3 =
        get_page_url "https://www.olx.in/items/q-car-cover" 1 ++ s :=
  ⟨(get_page_url_injective "https://www.olx.in/items/q-car-cover" 2 3
      (by decide) (by decide)).1 (by decide),
   (get_page_url_injective "https://www.olx.in/items/q-car-cover" 2 3
      (by decide) (by decide)).2 (by decide)⟩

end Olx
